import Mathlib

/-!
Verification development for the component-preview pipeline
(`PreviewServerManager.ts`, `ComponentTemplateGenerator.ts`):
token extraction from theme CSS, safelist stylesheet generation,
entry-point template generation, relative-path computation, and the
dev-server lifecycle manager.

The source's regular-expression scans are embedded as explicit
character-list matchers that implement the greedy/backtracking
semantics of the source's regex literals; the repeated `exec` loops
are embedded with an explicit fuel parameter (fuel `length + 1`
always suffices, proved below as the totality result).
-/

set_option maxRecDepth 10000

namespace Dld

/-- Character class `[a-zA-Z]`. -/
def isAlphaChar (c : Char) : Bool :=
  ('a' ≤ c && c ≤ 'z') || ('A' ≤ c && c ≤ 'Z')

/-- Character class `\d` = `[0-9]`. -/
def isDigitChar (c : Char) : Bool :=
  '0' ≤ c && c ≤ '9'

/-- Character class `[a-zA-Z0-9-]` (identifier body with dashes). -/
def isTokenChar (c : Char) : Bool :=
  isAlphaChar c || isDigitChar c || c == '-'

/-- Character class `[a-zA-Z0-9]`. -/
def isAlnumChar (c : Char) : Bool :=
  isAlphaChar c || isDigitChar c

/-- Character class `\s` (the ASCII whitespace characters relevant to CSS text). -/
def isWsChar (c : Char) : Bool :=
  c == ' ' || c == '\t' || c == '\n' || c == '\r' || c == '\x0b' || c == '\x0c'

/-- Strip a literal prefix from a character list (a regex literal token). -/
def stripPfx : List Char → List Char → Option (List Char)
  | [], l => some l
  | _ :: _, [] => none
  | p :: ps, c :: cs => if c = p then stripPfx ps cs else none

/-- Split a character run at its LAST dash that has a nonempty remainder,
    mirroring the greedy choice of group 1 in
    `--([a-zA-Z][a-zA-Z0-9-]*)-([a-zA-Z0-9-]+):` (the longest viable
    group-1 capture claims every dash except the final separating one). -/
def lastDashSplit : List Char → Option (List Char × List Char)
  | [] => none
  | c :: cs =>
    match lastDashSplit cs with
    | some (b, a) => some (c :: b, a)
    | none => if c = '-' ∧ cs ≠ [] then some ([], cs) else none

/-- The categorized token sets extracted from a theme CSS file
    (`colors`/`spacing`/`textSizes`/`fonts` are JS `Set`s: insertion-ordered,
    deduplicated; `utilityDefinitions` is a plain array). -/
structure TokenSet where
  colors : List String
  spacing : List String
  textSizes : List String
  fonts : List String
  utilityDefinitions : List String
deriving DecidableEq, Repr

/-- JS `Set.add`: append if not already present (keeps first-insertion order). -/
def addSet (l : List String) (x : String) : List String :=
  if x ∈ l then l else l ++ [x]

def TokenSet.empty : TokenSet := ⟨[], [], [], [], []⟩

/-- Match `--([a-zA-Z][a-zA-Z0-9-]*)-([a-zA-Z0-9-]+):` at the head of `l`.
    Both groups draw from `[a-zA-Z0-9-]`, so the matched region is the maximal
    token run after `--`; greedy group 1 takes everything up to the last dash
    that leaves a nonempty group 2, and the terminating `:` must follow the
    run (no token character can satisfy the `:` position, so backtracking
    inside the run cannot produce any other match).
    Returns ((category, name), rest-of-input-after-match). -/
def cssVarMatchAt (l : List Char) : Option ((String × String) × List Char) :=
  match stripPfx "--".data l with
  | none => none
  | some r =>
    match r.takeWhile isTokenChar with
    | [] => none
    | c :: cs =>
      if isAlphaChar c then
        match lastDashSplit (c :: cs) with
        | some (g1, g2) =>
          match r.dropWhile isTokenChar with
          | ':' :: rest => some ((⟨g1⟩, ⟨g2⟩), rest)
          | _ => none
        | none => none
      else none

/-- Match `@theme\s+inline\s*\x7b([^}]+)\x7d` at the head of `l`.
    Returns (block body, rest). -/
def themeBlockMatchAt (l : List Char) : Option (List Char × List Char) :=
  match stripPfx "@theme".data l with
  | none => none
  | some r1 =>
    if (r1.takeWhile isWsChar).isEmpty then none else
    match stripPfx "inline".data (r1.dropWhile isWsChar) with
    | none => none
    | some r2 =>
      match r2.dropWhile isWsChar with
      | '{' :: r3 =>
        match r3.takeWhile (fun c => c != '}') with
        | [] => none
        | b :: bs =>
          match r3.dropWhile (fun c => c != '}') with
          | '}' :: rest => some (b :: bs, rest)
          | _ => none
      | _ => none

/-- Greedy split for `--color-([a-zA-Z][a-zA-Z0-9-]*)-(?:\d{2,3}|50|950):`:
    the shade alternative `\d{2,3}` must end exactly at the end of the token
    run (a `:` must follow), so the only viable dashes are at `n-3` (2-digit
    shade) and `n-4` (3-digit shade); greedy group 1 prefers the later dash. -/
def colorScaleSplit (run : List Char) : Option (List Char) :=
  let n := run.length
  if 4 ≤ n ∧ run.get? (n-3) = some '-' ∧ (run.drop (n-2)).all isDigitChar then
    some (run.take (n-3))
  else if 5 ≤ n ∧ run.get? (n-4) = some '-' ∧ (run.drop (n-3)).all isDigitChar then
    some (run.take (n-4))
  else none

/-- Match `--color-([a-zA-Z][a-zA-Z0-9-]*)-(?:\d{2,3}|50|950):` at head. -/
def colorMatchAt (l : List Char) : Option (String × List Char) :=
  match stripPfx "--color-".data l with
  | none => none
  | some r =>
    match r.takeWhile isTokenChar with
    | [] => none
    | c :: _ =>
      if isAlphaChar c then
        match colorScaleSplit (r.takeWhile isTokenChar) with
        | some g1 =>
          match r.dropWhile isTokenChar with
          | ':' :: rest => some (⟨g1⟩, rest)
          | _ => none
        | none => none
      else none

/-- Match a literal prefix followed by a greedy nonempty `[a-zA-Z0-9]+`
    group and a terminating `:` (one alternative of the `spacing`/`text`
    regexes). -/
def alnumGroupMatchAt (pfx : String) (l : List Char) : Option (String × List Char) :=
  match stripPfx pfx.data l with
  | none => none
  | some r =>
    match r.takeWhile isAlnumChar with
    | [] => none
    | g :: gs =>
      match r.dropWhile isAlnumChar with
      | ':' :: rest => some (⟨g :: gs⟩, rest)
      | _ => none

/-- Match a literal prefix followed by a greedy nonempty `[a-zA-Z0-9-]+`
    group and a terminating `:` (one alternative of the `font` regex). -/
def tokenGroupMatchAt (pfx : String) (l : List Char) : Option (String × List Char) :=
  match stripPfx pfx.data l with
  | none => none
  | some r =>
    match r.takeWhile isTokenChar with
    | [] => none
    | g :: gs =>
      match r.dropWhile isTokenChar with
      | ':' :: rest => some (⟨g :: gs⟩, rest)
      | _ => none

/-- Match `--(?:spacing|size)-([a-zA-Z0-9]+):` at head (alternatives in
    source order). -/
def spacingMatchAt (l : List Char) : Option (String × List Char) :=
  alnumGroupMatchAt "--spacing-" l <|> alnumGroupMatchAt "--size-" l

/-- Match `--(?:text|font-size)-([a-zA-Z0-9]+):` at head. -/
def textMatchAt (l : List Char) : Option (String × List Char) :=
  alnumGroupMatchAt "--text-" l <|> alnumGroupMatchAt "--font-size-" l

/-- Match `--(?:font|font-family)-([a-zA-Z0-9-]+):` at head. -/
def fontMatchAt (l : List Char) : Option (String × List Char) :=
  tokenGroupMatchAt "--font-" l <|> tokenGroupMatchAt "--font-family-" l

/-- Match `@utility\s+([a-zA-Z][a-zA-Z0-9-]*)\s*\x7b([^}]+)\x7d` at head.
    Returns ((name, body), rest). -/
def utilityMatchAt (l : List Char) : Option ((String × String) × List Char) :=
  match stripPfx "@utility".data l with
  | none => none
  | some r1 =>
    if (r1.takeWhile isWsChar).isEmpty then none else
    match r1.dropWhile isWsChar with
    | [] => none
    | c :: cs =>
      if isAlphaChar c then
        let nm := c :: cs.takeWhile isTokenChar
        match (cs.dropWhile isTokenChar).dropWhile isWsChar with
        | '{' :: r3 =>
          match r3.takeWhile (fun c => c != '}') with
          | [] => none
          | b :: bs =>
            match r3.dropWhile (fun c => c != '}') with
            | '}' :: rest => some ((⟨nm⟩, ⟨b :: bs⟩), rest)
            | _ => none
        | _ => none
      else none

/-- One `while ((m = re.exec(s)) !== null)` loop over a global regex: try the
    matcher at each position, collecting captures left to right and resuming
    after each match (the regex object's `lastIndex`). `fuel` bounds the
    iteration count; `length + 1` always suffices, proved in
    `scanAll_isSome`. -/
def scanAll {α : Type} (m : List Char → Option (α × List Char)) :
    Nat → List Char → Option (List α)
  | 0, _ => none
  | _ + 1, [] => some []
  | fuel + 1, c :: cs =>
    match m (c :: cs) with
    | some (a, rest) => (scanAll m fuel rest).map (a :: ·)
    | none => scanAll m fuel cs

/-- The color-scale test `^\d{2,3}$|^(50|950)$` applied to `name`. -/
def isColorScale (name : String) : Bool :=
  (name.data.all isDigitChar && (name.data.length == 2 || name.data.length == 3))
    || name == "50" || name == "950"

/-- The `if`/`else if` category dispatch of the CSS-variable loop body. -/
def applyVar (t : TokenSet) (cat name : String) : TokenSet :=
  if cat == "color" then { t with colors := addSet t.colors name }
  else if cat == "spacing" || cat == "size" then
    { t with spacing := addSet t.spacing name }
  else if cat == "text" || cat == "font-size" then
    { t with textSizes := addSet t.textSizes name }
  else if cat == "font" || cat == "font-family" then
    { t with fonts := addSet t.fonts name }
  else if isColorScale name then { t with colors := addSet t.colors cat }
  else t

/-- Per-theme-block processing: the four stricter scans over the block body,
    feeding the same running sets. -/
def applyThemeBlock (t : TokenSet) (body : List Char) : Option TokenSet := do
  let cs ← scanAll colorMatchAt (body.length + 1) body
  let sp ← scanAll spacingMatchAt (body.length + 1) body
  let tx ← scanAll textMatchAt (body.length + 1) body
  let fo ← scanAll fontMatchAt (body.length + 1) body
  pure { t with
    colors := cs.foldl addSet t.colors
    spacing := sp.foldl addSet t.spacing
    textSizes := tx.foldl addSet t.textSizes
    fonts := fo.foldl addSet t.fonts }

/-- The reconstructed text pushed for each matched custom-utility block:
    back-tick template `@utility NAME {BODY}` with single normalized spaces. -/
def renderUtility (nm body : String) : String :=
  "@utility " ++ nm ++ " \x7b" ++ body ++ "\x7d"

/-- `parseCustomThemeProperties`, with the regex-exec loops run under
    explicit fuel; `parseCustomThemeProperties_total` proves the fuel
    (`length + 1`) never runs out, so the plain function below is the
    faithful embedding. -/
def parseCustomThemePropertiesOpt (cssContent : String) : Option TokenSet := do
  let l := cssContent.data
  let vars ← scanAll cssVarMatchAt (l.length + 1) l
  let t0 := vars.foldl (fun t p => applyVar t p.1 p.2) TokenSet.empty
  let blocks ← scanAll themeBlockMatchAt (l.length + 1) l
  let t1 ← blocks.foldlM applyThemeBlock t0
  let utils ← scanAll utilityMatchAt (l.length + 1) l
  pure { t1 with utilityDefinitions := utils.map (fun p => renderUtility p.1 p.2) }

def parseCustomThemeProperties (cssContent : String) : TokenSet :=
  (parseCustomThemePropertiesOpt cssContent).getD TokenSet.empty

/-- Match `@utility\s+([a-zA-Z][a-zA-Z0-9-]*)` at head (the non-global regex
    used to re-extract utility names from stored definitions). -/
def utilNameMatchAt (l : List Char) : Option String :=
  match stripPfx "@utility".data l with
  | none => none
  | some r =>
    if (r.takeWhile isWsChar).isEmpty then none else
    match r.dropWhile isWsChar with
    | [] => none
    | c :: cs => if isAlphaChar c then some ⟨c :: cs.takeWhile isTokenChar⟩ else none

/-- `def.match(regex)` without the global flag: first match anywhere. -/
def firstUtilityName : List Char → Option String
  | [] => none
  | c :: cs =>
    match utilNameMatchAt (c :: cs) with
    | some nm => some nm
    | none => firstUtilityName cs

/-- `match ? match[1] : null` for one stored utility definition. -/
def utilityNameOf (s : String) : Option String :=
  firstUtilityName s.data

/-- JS `Array.join(",")`. -/
def joinComma (l : List String) : String :=
  String.intercalate "," l

def standardColors : List String :=
  [ "red", "orange", "amber", "yellow", "lime", "green", "emerald", "teal",
    "cyan", "sky", "blue", "indigo", "violet", "purple", "fuchsia", "pink",
    "rose", "slate", "gray", "zinc", "neutral", "stone", "black", "white"]

def semanticTokens : List String :=
  [ "background", "foreground", "card", "popover", "primary", "secondary",
    "muted", "accent", "destructive", "border", "input", "ring", "sidebar"]

def invalidPatterns : List String :=
  [ "color-", "font-", "size-", "family-"]

/-- The anchored identifier test `^[a-zA-Z][a-zA-Z0-9-]*$`. -/
def matchesIdentAnchored (s : String) : Bool :=
  match s.data with
  | [] => false
  | c :: cs => isAlphaChar c && cs.all isTokenChar

/-- The custom-color filter predicate of `generateDynamicTailwindCss`. -/
def isValidCustomColor (color : String) : Bool :=
  !(semanticTokens.contains color)
    && !(invalidPatterns.any (fun pat => color.startsWith pat))
    && decide (0 < color.length)
    && matchesIdentAnchored color

def standardSpacing : List String :=
  [ "0", "px", "1", "2", "3", "4", "5", "6", "7", "8", "9", "10", "11", "12",
    "14", "16", "20", "24", "28", "32", "36", "40", "44", "48", "52", "56",
    "60", "64", "72", "80", "96", "auto"]

def standardTextSizes : List String :=
  [ "xs", "sm", "base", "lg", "xl", "2xl", "3xl", "4xl", "5xl", "6xl", "7xl",
    "8xl", "9xl"]

def standardFonts : List String :=
  [ "sans", "serif", "mono"]

def containerSizes : List String :=
  [ "3xs", "2xs", "xs", "sm", "md", "lg", "xl", "2xl", "3xl", "4xl", "5xl",
    "6xl", "7xl"]

def breakpoints : List String :=
  [ "sm", "md", "lg", "xl", "2xl"]

/-- Accumulate one parsed theme file into the running aggregate
    (`Set.forEach add` over each category; array push for definitions). -/
def accumulateTheme (acc t : TokenSet) : TokenSet :=
  { colors := t.colors.foldl addSet acc.colors
    spacing := t.spacing.foldl addSet acc.spacing
    textSizes := t.textSizes.foldl addSet acc.textSizes
    fonts := t.fonts.foldl addSet acc.fonts
    utilityDefinitions := acc.utilityDefinitions ++ t.utilityDefinitions }

/-- The theme-file reading loop of `generateDynamicTailwindCss`. The file
    system is abstracted as `readTheme : import path → Option contents`
    (covering `existsSync` plus `readFileSync` with the per-file `try`/
    `catch`: a missing or unreadable file contributes nothing). -/
def aggregateThemes (readTheme : String → Option String)
    (themeImports : List String) : TokenSet :=
  themeImports.foldl
    (fun acc imp =>
      match readTheme imp with
      | some css => accumulateTheme acc (parseCustomThemeProperties css)
      | none => acc)
    TokenSet.empty

def shadeLadder : String :=
  "50,100,200,300,400,500,600,700,800,900,950"

/-- One `@source inline('PFX-{COLORS}-{shades}');` template line. -/
def colorShadeLine (pfx colorsJoined : String) : String :=
  "@source inline(\x27" ++ pfx ++ "-\x7b" ++ colorsJoined ++ "\x7d-\x7b"
    ++ shadeLadder ++ "\x7d\x27);\n"

/-- One `@source inline('PFX-{ITEMS}');` template line. -/
def listLine (pfx itemsJoined : String) : String :=
  "@source inline(\x27" ++ pfx ++ "-\x7b" ++ itemsJoined ++ "\x7d\x27);\n"

/-- One `@source inline('BODY');` template line with fixed body text. -/
def fixedLine (body : String) : String :=
  "@source inline(\x27" ++ body ++ "\x27);\n"

/-- The per-breakpoint template chunk (`breakpoints.map((bp) => ...)`),
    which begins with a newline and ends without one. -/
def breakpointChunk (sJ tJ : String) (bp : String) : String :=
  "\n"
    ++ fixedLine (bp ++ ":grid-cols-\x7b1,2,3,4,5,6,7,8,9,10,11,12\x7d")
    ++ listLine (bp ++ ":gap") sJ
    ++ listLine (bp ++ ":p") sJ
    ++ listLine (bp ++ ":m") sJ
    ++ listLine (bp ++ ":text") tJ
    ++ listLine (bp ++ ":w") sJ
    ++ listLine (bp ++ ":h") sJ
    ++ fixedLine (bp ++ ":\x7bblock,inline-block,inline,flex,inline-flex,grid,inline-grid,hidden\x7d")
    ++ "@source inline(\x27" ++ bp ++ ":flex-\x7brow,row-reverse,col,col-reverse\x7d\x27);"

/-- The returned template literal of `generateDynamicTailwindCss`,
    transcribed line by line (`cJ`/`sJ`/`tJ`/`fJ` are the comma-joined
    `allColors`/`allSpacing`/`allTextSizes`/`allFonts`). -/
def buildSafelistCss (imports cJ sJ tJ fJ : String)
    (utilityNames : List String) : String :=
  "@import \"tailwindcss\";\n"
    ++ imports ++ "\n"
    ++ "\n/* === COMPREHENSIVE TAILWIND FOUNDATIONS SAFELIST === */\n"
    ++ "\n/* Colors - All variants with all shades */\n"
    ++ colorShadeLine "bg" cJ
    ++ colorShadeLine "text" cJ
    ++ colorShadeLine "border" cJ
    ++ colorShadeLine "ring" cJ
    ++ colorShadeLine "shadow" cJ
    ++ colorShadeLine "from" cJ
    ++ colorShadeLine "via" cJ
    ++ colorShadeLine "to" cJ
    ++ colorShadeLine "accent" cJ
    ++ colorShadeLine "caret" cJ
    ++ colorShadeLine "fill" cJ
    ++ colorShadeLine "stroke" cJ
    ++ colorShadeLine "outline" cJ
    ++ "\n/* Color variants with hover, focus, active states */\n"
    ++ colorShadeLine "hover:bg" cJ
    ++ colorShadeLine "hover:text" cJ
    ++ colorShadeLine "hover:border" cJ
    ++ colorShadeLine "focus:bg" cJ
    ++ colorShadeLine "focus:text" cJ
    ++ colorShadeLine "focus:border" cJ
    ++ colorShadeLine "focus:ring" cJ
    ++ colorShadeLine "active:bg" cJ
    ++ "\n/* Spacing - All directions and variants */\n"
    ++ listLine "p" sJ
    ++ listLine "px" sJ
    ++ listLine "py" sJ
    ++ listLine "pt" sJ
    ++ listLine "pr" sJ
    ++ listLine "pb" sJ
    ++ listLine "pl" sJ
    ++ listLine "m" sJ
    ++ listLine "mx" sJ
    ++ listLine "my" sJ
    ++ listLine "mt" sJ
    ++ listLine "mr" sJ
    ++ listLine "mb" sJ
    ++ listLine "ml" sJ
    ++ listLine "-m" sJ
    ++ listLine "-mx" sJ
    ++ listLine "-my" sJ
    ++ listLine "-mt" sJ
    ++ listLine "-mr" sJ
    ++ listLine "-mb" sJ
    ++ listLine "-ml" sJ
    ++ "\n/* Width and Height */\n"
    ++ listLine "w" sJ
    ++ listLine "h" sJ
    ++ listLine "min-w" sJ
    ++ listLine "min-h" sJ
    ++ listLine "max-w" sJ
    ++ listLine "max-h" sJ
    ++ fixedLine "w-\x7bfull,screen,fit,min,max\x7d"
    ++ fixedLine "h-\x7bfull,screen,fit,min,max\x7d"
    ++ fixedLine "min-w-\x7bfull,screen,fit,min,max\x7d"
    ++ fixedLine "min-h-\x7bfull,screen,fit,min,max\x7d"
    ++ listLine "max-w" (joinComma containerSizes ++ ",full,screen,fit,min,max,none")
    ++ fixedLine "max-h-\x7bfull,screen,fit,min,max\x7d"
    ++ "\n/* Positioning */\n"
    ++ listLine "top" sJ
    ++ listLine "right" sJ
    ++ listLine "bottom" sJ
    ++ listLine "left" sJ
    ++ listLine "inset" sJ
    ++ listLine "inset-x" sJ
    ++ listLine "inset-y" sJ
    ++ listLine "-top" sJ
    ++ listLine "-right" sJ
    ++ listLine "-bottom" sJ
    ++ listLine "-left" sJ
    ++ "\n/* Typography */\n"
    ++ listLine "text" tJ
    ++ listLine "font" fJ
    ++ fixedLine "font-\x7bthin,extralight,light,normal,medium,semibold,bold,extrabold,black\x7d"
    ++ fixedLine "leading-\x7b3,4,5,6,7,8,9,10,none,tight,snug,normal,relaxed,loose\x7d"
    ++ fixedLine "tracking-\x7btighter,tight,normal,wide,wider,widest\x7d"
    ++ fixedLine "text-\x7bleft,center,right,justify,start,end\x7d"
    ++ fixedLine "text-\x7binherit,current,transparent\x7d"
    ++ "\n/* Border radius */\n"
    ++ fixedLine "rounded\x7b,-none,-sm,-md,-lg,-xl,-2xl,-3xl,-full\x7d"
    ++ fixedLine "rounded-t\x7b,-none,-sm,-md,-lg,-xl,-2xl,-3xl,-full\x7d"
    ++ fixedLine "rounded-r\x7b,-none,-sm,-md,-lg,-xl,-2xl,-3xl,-full\x7d"
    ++ fixedLine "rounded-b\x7b,-none,-sm,-md,-lg,-xl,-2xl,-3xl,-full\x7d"
    ++ fixedLine "rounded-l\x7b,-none,-sm,-md,-lg,-xl,-2xl,-3xl,-full\x7d"
    ++ fixedLine "rounded-tl\x7b,-none,-sm,-md,-lg,-xl,-2xl,-3xl,-full\x7d"
    ++ fixedLine "rounded-tr\x7b,-none,-sm,-md,-lg,-xl,-2xl,-3xl,-full\x7d"
    ++ fixedLine "rounded-br\x7b,-none,-sm,-md,-lg,-xl,-2xl,-3xl,-full\x7d"
    ++ fixedLine "rounded-bl\x7b,-none,-sm,-md,-lg,-xl,-2xl,-3xl,-full\x7d"
    ++ "\n/* Border width */\n"
    ++ fixedLine "border\x7b,-0,-2,-4,-8\x7d"
    ++ fixedLine "border-t\x7b,-0,-2,-4,-8\x7d"
    ++ fixedLine "border-r\x7b,-0,-2,-4,-8\x7d"
    ++ fixedLine "border-b\x7b,-0,-2,-4,-8\x7d"
    ++ fixedLine "border-l\x7b,-0,-2,-4,-8\x7d"
    ++ fixedLine "border-x\x7b,-0,-2,-4,-8\x7d"
    ++ fixedLine "border-y\x7b,-0,-2,-4,-8\x7d"
    ++ "\n/* Layout and Display */\n"
    ++ fixedLine "\x7bblock,inline-block,inline,flex,inline-flex,table,inline-table,table-caption,table-cell,table-column,table-column-group,table-footer-group,table-header-group,table-row-group,table-row,flow-root,grid,inline-grid,contents,list-item,hidden\x7d"
    ++ fixedLine "\x7bstatic,fixed,absolute,relative,sticky\x7d"
    ++ fixedLine "\x7bvisible,invisible,collapse\x7d"
    ++ fixedLine "overflow-\x7bauto,hidden,clip,visible,scroll\x7d"
    ++ fixedLine "overflow-x-\x7bauto,hidden,clip,visible,scroll\x7d"
    ++ fixedLine "overflow-y-\x7bauto,hidden,clip,visible,scroll\x7d"
    ++ "\n/* Flexbox */\n"
    ++ fixedLine "flex-\x7b1,auto,initial,none\x7d"
    ++ fixedLine "flex-\x7brow,row-reverse,col,col-reverse\x7d"
    ++ fixedLine "flex-\x7bwrap,wrap-reverse,nowrap\x7d"
    ++ fixedLine "grow\x7b,-0\x7d"
    ++ fixedLine "shrink\x7b,-0\x7d"
    ++ fixedLine "justify-\x7bnormal,start,end,center,between,around,evenly,stretch\x7d"
    ++ fixedLine "justify-items-\x7bstart,end,center,stretch\x7d"
    ++ fixedLine "justify-self-\x7bauto,start,end,center,stretch\x7d"
    ++ fixedLine "content-\x7bnormal,center,start,end,between,around,evenly,baseline,stretch\x7d"
    ++ fixedLine "items-\x7bstart,end,center,baseline,stretch\x7d"
    ++ fixedLine "self-\x7bauto,start,end,center,stretch,baseline\x7d"
    ++ "\n/* Grid */\n"
    ++ fixedLine "grid-cols-\x7b1,2,3,4,5,6,7,8,9,10,11,12,none,subgrid\x7d"
    ++ fixedLine "grid-rows-\x7b1,2,3,4,5,6,7,8,9,10,11,12,none,subgrid\x7d"
    ++ fixedLine "col-\x7bauto,span-1,span-2,span-3,span-4,span-5,span-6,span-7,span-8,span-9,span-10,span-11,span-12,span-full\x7d"
    ++ fixedLine "row-\x7bauto,span-1,span-2,span-3,span-4,span-5,span-6,span-7,span-8,span-9,span-10,span-11,span-12,span-full\x7d"
    ++ fixedLine "col-start-\x7b1,2,3,4,5,6,7,8,9,10,11,12,13,auto\x7d"
    ++ fixedLine "col-end-\x7b1,2,3,4,5,6,7,8,9,10,11,12,13,auto\x7d"
    ++ fixedLine "row-start-\x7b1,2,3,4,5,6,7,8,9,10,11,12,13,auto\x7d"
    ++ fixedLine "row-end-\x7b1,2,3,4,5,6,7,8,9,10,11,12,13,auto\x7d"
    ++ listLine "gap" sJ
    ++ listLine "gap-x" sJ
    ++ listLine "gap-y" sJ
    ++ "\n/* Shadows and Effects */\n"
    ++ fixedLine "shadow\x7b,-xs,-sm,-md,-lg,-xl,-2xl,-inner,-none\x7d"
    ++ fixedLine "drop-shadow\x7b,-xs,-sm,-md,-lg,-xl,-2xl,-none\x7d"
    ++ fixedLine "blur\x7b,-none,-sm,-md,-lg,-xl,-2xl,-3xl\x7d"
    ++ fixedLine "brightness-\x7b0,50,75,90,95,100,105,110,125,150,200\x7d"
    ++ fixedLine "contrast-\x7b0,50,75,100,125,150,200\x7d"
    ++ fixedLine "grayscale\x7b,-0\x7d"
    ++ fixedLine "hue-rotate-\x7b0,15,30,60,90,180\x7d"
    ++ fixedLine "invert\x7b,-0\x7d"
    ++ fixedLine "saturate-\x7b0,50,100,150,200\x7d"
    ++ fixedLine "sepia\x7b,-0\x7d"
    ++ "\n/* Opacity */\n"
    ++ fixedLine "opacity-\x7b0,5,10,15,20,25,30,35,40,45,50,55,60,65,70,75,80,85,90,95,100\x7d"
    ++ fixedLine "bg-opacity-\x7b0,5,10,15,20,25,30,35,40,45,50,55,60,65,70,75,80,85,90,95,100\x7d"
    ++ fixedLine "text-opacity-\x7b0,5,10,15,20,25,30,35,40,45,50,55,60,65,70,75,80,85,90,95,100\x7d"
    ++ fixedLine "border-opacity-\x7b0,5,10,15,20,25,30,35,40,45,50,55,60,65,70,75,80,85,90,95,100\x7d"
    ++ "\n/* Z-index */\n"
    ++ fixedLine "z-\x7b0,10,20,30,40,50,auto\x7d"
    ++ fixedLine "-z-\x7b0,10,20,30,40,50\x7d"
    ++ "\n/* Responsive breakpoints for all utilities */\n"
    ++ String.join (breakpoints.map (breakpointChunk sJ tJ))
    ++ "\n\n/* Custom utilities from theme files */\n"
    ++ (if 0 < utilityNames.length then
          "@source inline(\x27\x7b" ++ joinComma utilityNames ++ "\x7d\x27);"
        else "")
    ++ "\n\n/* Dark mode variants for key utilities */\n"
    ++ colorShadeLine "dark:bg" cJ
    ++ colorShadeLine "dark:text" cJ
    ++ colorShadeLine "dark:border" cJ
    ++ "\n/* State variants for interactivity */\n"
    ++ colorShadeLine "group-hover:bg" cJ
    ++ colorShadeLine "peer-focus:bg" cJ
    ++ fixedLine "disabled:opacity-\x7b50,75\x7d"
    ++ fixedLine "disabled:bg-\x7bgray,slate,zinc,neutral,stone\x7d-\x7b100,200,300\x7d"

/-- `generateDynamicTailwindCss(themeImports)`: aggregate every readable
    theme file's parsed tokens, build the combined foundation lists (note:
    only `allColors` is deduplicated through a `Set`; the spacing/text/font
    lists are plain concatenations), extract custom utility names, and
    interpolate everything into the safelist template. -/
def generateDynamicTailwindCss (readTheme : String → Option String)
    (themeImports : List String) : String :=
  let agg := aggregateThemes readTheme themeImports
  let validCustomColors := agg.colors.filter isValidCustomColor
  let allColors := (standardColors ++ validCustomColors).foldl addSet []
  let allSpacing := standardSpacing ++ agg.spacing
  let allTextSizes := standardTextSizes ++ agg.textSizes
  let allFonts := standardFonts ++ agg.fonts
  let utilityNames := (agg.utilityDefinitions.filterMap utilityNameOf).foldl addSet []
  let imports := String.intercalate "\n"
    (themeImports.map (fun theme => "@import \"" ++ theme ++ "\";"))
  buildSafelistCss imports (joinComma allColors) (joinComma allSpacing)
    (joinComma allTextSizes) (joinComma allFonts) utilityNames

/-- A React prop descriptor (`Prop` in `preview-types.ts`; `propType` ranges
    over string/number/boolean/array/object/function). -/
structure PropSpec where
  propName : String
  propType : String
  defaultValue : String
deriving DecidableEq, Repr

/-- The `switch (prop.propType)` serialization of one JSX prop value in
    `generateJSXProps` (array/object fall through to the `default` case). -/
def propJSXValue (p : PropSpec) : String :=
  if p.propType == "string" then "\"" ++ p.defaultValue ++ "\""
  else if p.propType == "boolean" then
    (if p.defaultValue == "true" then "\x7btrue\x7d" else "\x7bfalse\x7d")
  else if p.propType == "number" then "\x7b" ++ p.defaultValue ++ "\x7d"
  else if p.propType == "function" then "\x7b" ++ p.defaultValue ++ "\x7d"
  else "\"" ++ p.defaultValue ++ "\""

/-- One `name=value` entry of `generateJSXProps`. -/
def propJSXEntry (p : PropSpec) : String :=
  p.propName ++ "=" ++ propJSXValue p

/-- `generateJSXProps(props)`. -/
def generateJSXProps (props : List PropSpec) : String :=
  if props.length == 0 then ""
  else String.intercalate " " (props.map propJSXEntry)

/-- Split a path string at `/` separators (posix split; always returns at
    least one segment). -/
def splitSlash : List Char → List (List Char)
  | [] => [[]]
  | c :: cs =>
    if c = '/' then [] :: splitSlash cs
    else
      match splitSlash cs with
      | seg :: rest => (c :: seg) :: rest
      | [] => [[c]]

/-- One step of posix path normalization: drop empty and `.` segments, pop
    one on `..`, keep the rest. -/
def normStep (acc : List (List Char)) (seg : List Char) : List (List Char) :=
  if seg = [] ∨ seg = [ '.' ] then acc
  else if seg = [ '.', '.' ] then acc.dropLast
  else acc ++ [seg]

/-- posix path normalization over resolved segments (the `path.resolve`
    step for an absolute input path). -/
def normalizeSegs (segs : List (List Char)) : List (List Char) :=
  segs.foldl normStep []

/-- Resolved segment list of an absolute posix path. -/
def pathSegs (p : String) : List (List Char) :=
  normalizeSegs (splitSlash p.data)

/-- Drop the common leading segments of two resolved paths. -/
def dropCommonSegs :
    List (List Char) → List (List Char) → List (List Char) × List (List Char)
  | f :: fs, t :: ts => if f = t then dropCommonSegs fs ts else (f :: fs, t :: ts)
  | fs, ts => (fs, ts)

/-- posix `path.relative(from, to)` on absolute paths: after dropping the
    common segment prefix, go up once per remaining `from` segment, then
    descend the remaining `to` segments, joined with `/`. -/
def posixRelative (fromPath toPath : String) : String :=
  let pair := dropCommonSegs (pathSegs fromPath) (pathSegs toPath)
  String.intercalate "/"
    (pair.1.map (fun _ => "..") ++ pair.2.map (fun seg => (⟨seg⟩ : String)))

/-- `convertToRelativePath(componentPath, extensionPath?)`: resolve the
    preview staging directory `extensionPath + "/preview"` and compute the
    relative path from it to the component (posix `path` semantics); with no
    `extensionPath` the source falls back to the input path unchanged. -/
def convertToRelativePath (componentPath : String)
    (extensionPath : Option String) : String :=
  match extensionPath with
  | none => componentPath
  | some ep => posixRelative (ep ++ "/preview") componentPath

/-- `generateTemplate(componentPath, componentName, props, extensionPath)`:
    the generated React entry-point source. -/
def generateTemplate (componentPath componentName : String)
    (props : List PropSpec) (extensionPath : Option String) : String :=
  let importPath := convertToRelativePath componentPath extensionPath
  "\nimport React from \x27react\x27;\nimport * as ReactDOM from \x27react-dom/client\x27;\nimport \x27./tailwind.css\x27;\nimport \x7b "
    ++ componentName ++ " \x7d from \"" ++ importPath
    ++ "\";\n\n// Render the component with props\nconst App = () => \x7b\n  return (\n    <div className=\"p-5 min-h-screen flex items-center justify-center font-sans\">\n      <"
    ++ componentName ++ " " ++ generateJSXProps props
    ++ " />\n      <div className=\"fixed bottom-2 right-2 bg-black bg-opacity-70 text-white px-2 py-1 rounded text-xs font-mono\">\n        Component: "
    ++ componentName
    ++ "\n      </div>\n    </div>\n  );\n\x7d;\n\n// Use React 18+ createRoot API\nconst container = document.getElementById(\x27root\x27);\nconst root = ReactDOM.createRoot(container);\nroot.render(<App />);\n"

/-- `ComponentInfo` from `preview-types.ts`. -/
structure ComponentInfo where
  name : String
  path : String
  props : List PropSpec
deriving DecidableEq, Repr

/-- The mutable fields of a `PreviewServerManager` instance together with
    its readonly constructor paths; the Vite server handle is abstracted to
    an opaque id and the watcher handle to its presence. -/
structure ManagerState where
  extensionPath : String
  workspacePath : String
  viteServer : Option Nat
  isStarting : Bool
  currentComponent : Option ComponentInfo
  themeWatcher : Bool
deriving DecidableEq, Repr

/-- Outcomes of the effectful calls a lifecycle operation makes: existence
    checks, `createServer`/`listen` success (with thrown messages), and the
    synchronous file writes (`writeFileSync` throws on failure). -/
structure Env where
  previewDirExists : Bool
  createServerOk : Bool
  createServerErr : String
  serverHandle : Nat
  listenOk : Bool
  listenErr : String
  themeDirExists : Bool
  entryWriteOk : Bool
  entryWriteErr : String
deriving Repr

/-- `start()`: the guard, the `try` block (preview-dir check, `createServer`,
    `listen`, `startThemeWatcher`), the `catch` (clear the handle, rethrow
    with both paths in the message) and the `finally` (clear `isStarting`).
    `.error` models a thrown exception. -/
def start (env : Env) (st : ManagerState) : ManagerState × Except String Unit :=
  if st.viteServer.isSome || st.isStarting then (st, .ok ())
  else
    let fail := fun (st' : ManagerState) (msg : String) =>
      ({ st' with viteServer := none, isStarting := false },
        Except.error ("Failed to start Vite server: " ++ msg
          ++ ". Extension path: " ++ st.extensionPath
          ++ ", Workspace path: " ++ st.workspacePath))
    let st1 := { st with isStarting := true }
    if !env.previewDirExists then
      fail st1 ("Preview directory does not exist at: " ++ st.extensionPath ++ "/preview")
    else if !env.createServerOk then
      fail st1 env.createServerErr
    else
      let st2 := { st1 with viteServer := some env.serverHandle }
      if !env.listenOk then
        fail st2 env.listenErr
      else
        ({ st2 with
            isStarting := false
            themeWatcher := if env.themeDirExists then true else st2.themeWatcher },
          .ok ())

/-- Outcome of `viteServer.close()` inside `stop()`. -/
structure StopEnv where
  closeOk : Bool
  closeErr : String
deriving Repr

/-- `stop()`: no-op when no server handle exists; otherwise stop the theme
    watcher first, then close the server (a close failure is rethrown with
    the handle still set, since the assignment follows the `await`). -/
def stop (env : StopEnv) (st : ManagerState) : ManagerState × Except String Unit :=
  if st.viteServer.isNone then (st, .ok ())
  else
    let st1 := { st with themeWatcher := false }
    if env.closeOk then ({ st1 with viteServer := none }, .ok ())
    else (st1, .error env.closeErr)

/-- `updateComponent(componentInfo)`: store the descriptor as current, run
    `updateTailwindCssWithThemes` (whose own `try`/`catch` swallows every
    failure), generate the entry template, and write it; a failed entry
    write is rethrown by the surrounding `catch`. -/
def updateComponent (env : Env) (st : ManagerState) (info : ComponentInfo) :
    ManagerState × Except String Unit :=
  let st1 := { st with currentComponent := some info }
  if env.entryWriteOk then (st1, .ok ())
  else (st1, .error env.entryWriteErr)

/-- `updateComponentProps(props)`. -/
def updateComponentProps (env : Env) (st : ManagerState)
    (props : List PropSpec) : ManagerState × Except String Unit :=
  match st.currentComponent with
  | none => (st, .error "No component currently loaded")
  | some c => updateComponent env st { c with props := props }

/-- `getCurrentComponent()`. -/
def getCurrentComponent (st : ManagerState) : Option ComponentInfo :=
  st.currentComponent

/-- `needle` starts `hay` (boolean, for concrete evaluation). -/
def startsWithSeg : List Char → List Char → Bool
  | [], _ => true
  | _ :: _, [] => false
  | c :: cs, d :: ds => c == d && startsWithSeg cs ds

/-- `needle` occurs contiguously somewhere inside `hay` (boolean). -/
def occursIn (needle : List Char) : List Char → Bool
  | [] => needle.isEmpty
  | d :: ds => startsWithSeg needle (d :: ds) || occursIn needle ds

/-- `needle` occurs contiguously inside `hay` (propositional form). -/
def containsSeg (needle hay : List Char) : Prop :=
  ∃ a b, hay = a ++ needle ++ b

/-- One string occurs contiguously inside another. -/
def containsStr (needle hay : String) : Prop :=
  containsSeg needle.data hay.data

/-- Two theme environments with byte-different file contents whose parsed
    token collections are equal as sets but discovered in opposite orders. -/
def themeEnvA : String → Option String := fun imp =>
  if imp = "t.css" then some "--aa-500: x;\n--bb-500: y;" else none

def themeEnvB : String → Option String := fun imp =>
  if imp = "t.css" then some "--bb-500: y;\n--aa-500: x;" else none

theorem stripPfx_eq_append {p : List Char} :
    ∀ {l r : List Char}, stripPfx p l = some r → l = p ++ r := by
  induction p with
  | nil => intro l r h; simp [stripPfx] at h; simp [h]
  | cons q qs ih =>
    intro l r h
    match l with
    | [] => simp [stripPfx] at h
    | c :: cs =>
      simp only [stripPfx] at h
      split at h
      · next heq => simp [heq, ih h]
      · exact absurd h (by simp)

theorem stripPfx_length {p l r : List Char} (h : stripPfx p l = some r) :
    l.length = p.length + r.length := by
  rw [stripPfx_eq_append h]; simp

theorem length_dropWhile_le' (p : Char → Bool) (l : List Char) :
    (l.dropWhile p).length ≤ l.length := by
  induction l with
  | nil => simp [List.dropWhile]
  | cons c cs ih =>
    simp only [List.dropWhile]
    split
    · exact le_trans ih (by simp)
    · simp

theorem lastDashSplit_eq {l b a : List Char} (h : lastDashSplit l = some (b, a)) :
    l = b ++ '-' :: a ∧ a ≠ [] := by
  induction l generalizing b a with
  | nil => simp [lastDashSplit] at h
  | cons c cs ih =>
    simp only [lastDashSplit] at h
    split at h
    · next b' a' heq =>
      obtain ⟨hb, ha⟩ := Prod.mk.injEq .. ▸ Option.some.injEq .. ▸ h
      obtain ⟨h1, h2⟩ := ih heq
      subst hb ha
      simp [h1, h2]
    · split at h
      · next hc =>
        obtain ⟨hb, ha⟩ := Prod.mk.injEq .. ▸ Option.some.injEq .. ▸ h
        subst hb ha
        simp [hc.1, hc.2]
      · exact absurd h (by simp)

theorem scanAll_isSome {α : Type} (m : List Char → Option (α × List Char))
    (hm : ∀ l a rest, m l = some (a, rest) → rest.length < l.length) :
    ∀ fuel l, l.length < fuel → (scanAll m fuel l).isSome := by
  intro fuel
  induction fuel with
  | zero => intro l h; omega
  | succ n ih =>
    intro l h
    match l with
    | [] => simp [scanAll]
    | c :: cs =>
      cases hm' : m (c :: cs) with
      | none =>
        simp only [scanAll, hm']
        exact ih cs (by simp at h; omega)
      | some p =>
        obtain ⟨a, rest⟩ := p
        have hlt := hm _ _ _ hm'
        have hrec := ih rest (by simp at h hlt; omega)
        simp only [scanAll, hm']
        simpa using hrec

theorem alnumGroupMatchAt_progress {pfx : String} {l : List Char} {g rest}
    (h : alnumGroupMatchAt pfx l = some (g, rest)) : rest.length < l.length := by
  unfold alnumGroupMatchAt at h
  split at h
  · exact absurd h (by simp)
  next r hr =>
    split at h
    · exact absurd h (by simp)
    next c cs hrun =>
      split at h
      next rest' hdrop =>
        obtain ⟨-, hrest⟩ := Prod.mk.injEq .. ▸ Option.some.injEq .. ▸ h
        subst hrest
        have h1 := stripPfx_length hr
        have h2 := length_dropWhile_le' isAlnumChar r
        rw [hdrop] at h2
        simp at h2
        omega
      · exact absurd h (by simp)

theorem tokenGroupMatchAt_progress {pfx : String} {l : List Char} {g rest}
    (h : tokenGroupMatchAt pfx l = some (g, rest)) : rest.length < l.length := by
  unfold tokenGroupMatchAt at h
  split at h
  · exact absurd h (by simp)
  next r hr =>
    split at h
    · exact absurd h (by simp)
    next c cs hrun =>
      split at h
      next rest' hdrop =>
        obtain ⟨-, hrest⟩ := Prod.mk.injEq .. ▸ Option.some.injEq .. ▸ h
        subst hrest
        have h1 := stripPfx_length hr
        have h2 := length_dropWhile_le' isTokenChar r
        rw [hdrop] at h2
        simp at h2
        omega
      · exact absurd h (by simp)

theorem cssVarMatchAt_progress {l : List Char} {a rest}
    (h : cssVarMatchAt l = some (a, rest)) : rest.length < l.length := by
  unfold cssVarMatchAt at h
  split at h
  · exact absurd h (by simp)
  next r hr =>
    split at h
    · exact absurd h (by simp)
    next c cs hrun =>
      split at h
      · split at h
        next g1 g2 hsplit =>
          split at h
          next rest' hdrop =>
            obtain ⟨-, hrest⟩ := Prod.mk.injEq .. ▸ Option.some.injEq .. ▸ h
            subst hrest
            have h1 := stripPfx_length hr
            have h2 := length_dropWhile_le' isTokenChar r
            rw [hdrop] at h2
            simp at h2 h1
            omega
          · exact absurd h (by simp)
        · exact absurd h (by simp)
      · exact absurd h (by simp)

theorem colorMatchAt_progress {l : List Char} {a rest}
    (h : colorMatchAt l = some (a, rest)) : rest.length < l.length := by
  unfold colorMatchAt at h
  split at h
  · exact absurd h (by simp)
  next r hr =>
    split at h
    · exact absurd h (by simp)
    next c cs hrun =>
      split at h
      · split at h
        next g1 hsplit =>
          split at h
          next rest' hdrop =>
            obtain ⟨-, hrest⟩ := Prod.mk.injEq .. ▸ Option.some.injEq .. ▸ h
            subst hrest
            have h1 := stripPfx_length hr
            have h2 := length_dropWhile_le' isTokenChar r
            rw [hdrop] at h2
            simp at h2 h1
            omega
          · exact absurd h (by simp)
        · exact absurd h (by simp)
      · exact absurd h (by simp)

theorem themeBlockMatchAt_progress {l : List Char} {a rest}
    (h : themeBlockMatchAt l = some (a, rest)) : rest.length < l.length := by
  unfold themeBlockMatchAt at h
  split at h
  · exact absurd h (by simp)
  next r1 hr1 =>
    split at h
    · exact absurd h (by simp)
    · split at h
      · exact absurd h (by simp)
      next r2 hr2 =>
        split at h
        next r3 hdrop2 =>
          split at h
          · exact absurd h (by simp)
          next b bs hbody =>
            split at h
            next rest' hdrop3 =>
              obtain ⟨-, hrest⟩ := Prod.mk.injEq .. ▸ Option.some.injEq .. ▸ h
              subst hrest
              have h1 := stripPfx_length hr1
              have h2 := stripPfx_length hr2
              have h3 := length_dropWhile_le' isWsChar r1
              have h4 := length_dropWhile_le' isWsChar r2
              have h5 := length_dropWhile_le' (fun c => c != '}') r3
              rw [hdrop2] at h4
              rw [hdrop3] at h5
              simp at h4 h5
              omega
            · exact absurd h (by simp)
        · exact absurd h (by simp)

theorem utilityMatchAt_progress {l : List Char} {a rest}
    (h : utilityMatchAt l = some (a, rest)) : rest.length < l.length := by
  unfold utilityMatchAt at h
  split at h
  · exact absurd h (by simp)
  next r1 hr1 =>
    split at h
    · exact absurd h (by simp)
    · split at h
      · exact absurd h (by simp)
      next c cs hdrop1 =>
        split at h
        · simp only [] at h
          split at h
          next r3 hdrop2 =>
            split at h
            · exact absurd h (by simp)
            next b bs hbody =>
              split at h
              next rest' hdrop3 =>
                obtain ⟨-, hrest⟩ := Prod.mk.injEq .. ▸ Option.some.injEq .. ▸ h
                subst hrest
                have h1 := stripPfx_length hr1
                have h2 := length_dropWhile_le' isWsChar r1
                rw [hdrop1] at h2
                have h3 := length_dropWhile_le' isTokenChar cs
                have h4 := length_dropWhile_le' isWsChar (cs.dropWhile isTokenChar)
                rw [hdrop2] at h4
                have h5 := length_dropWhile_le' (fun c => c != '}') r3
                rw [hdrop3] at h5
                simp at h2 h4 h5
                omega
              · exact absurd h (by simp)
          · exact absurd h (by simp)
        · exact absurd h (by simp)

theorem spacingMatchAt_progress {l : List Char} {a rest}
    (h : spacingMatchAt l = some (a, rest)) : rest.length < l.length := by
  unfold spacingMatchAt at h
  rcases h' : alnumGroupMatchAt "--spacing-" l with - | p
  · rw [h', Option.none_orElse] at h
    exact alnumGroupMatchAt_progress h
  · rw [h', Option.some_orElse] at h
    obtain rfl : p = (a, rest) := by simpa using h
    exact alnumGroupMatchAt_progress h'

theorem textMatchAt_progress {l : List Char} {a rest}
    (h : textMatchAt l = some (a, rest)) : rest.length < l.length := by
  unfold textMatchAt at h
  rcases h' : alnumGroupMatchAt "--text-" l with - | p
  · rw [h', Option.none_orElse] at h
    exact alnumGroupMatchAt_progress h
  · rw [h', Option.some_orElse] at h
    obtain rfl : p = (a, rest) := by simpa using h
    exact alnumGroupMatchAt_progress h'

theorem fontMatchAt_progress {l : List Char} {a rest}
    (h : fontMatchAt l = some (a, rest)) : rest.length < l.length := by
  unfold fontMatchAt at h
  rcases h' : tokenGroupMatchAt "--font-" l with - | p
  · rw [h', Option.none_orElse] at h
    exact tokenGroupMatchAt_progress h
  · rw [h', Option.some_orElse] at h
    obtain rfl : p = (a, rest) := by simpa using h
    exact tokenGroupMatchAt_progress h'

theorem applyThemeBlock_isSome (t : TokenSet) (b : List Char) :
    (applyThemeBlock t b).isSome := by
  obtain ⟨cs, hcs⟩ := Option.isSome_iff_exists.mp
    (scanAll_isSome _ (fun _ _ _ => colorMatchAt_progress) _ b (Nat.lt_succ_self _))
  obtain ⟨sp, hsp⟩ := Option.isSome_iff_exists.mp
    (scanAll_isSome _ (fun _ _ _ => spacingMatchAt_progress) _ b (Nat.lt_succ_self _))
  obtain ⟨tx, htx⟩ := Option.isSome_iff_exists.mp
    (scanAll_isSome _ (fun _ _ _ => textMatchAt_progress) _ b (Nat.lt_succ_self _))
  obtain ⟨fo, hfo⟩ := Option.isSome_iff_exists.mp
    (scanAll_isSome _ (fun _ _ _ => fontMatchAt_progress) _ b (Nat.lt_succ_self _))
  simp [applyThemeBlock, hcs, hsp, htx, hfo]

theorem foldlM_isSome {α β : Type} (f : β → α → Option β)
    (hf : ∀ t b, (f t b).isSome) :
    ∀ (l : List α) (t : β), (l.foldlM f t).isSome := by
  intro l
  induction l with
  | nil => intro t; simp
  | cons b bs ih =>
    intro t
    obtain ⟨t', ht'⟩ := Option.isSome_iff_exists.mp (hf t b)
    simp only [List.foldlM_cons, ht', Option.some_bind]
    exact ih t'

theorem stripPfx_self_append (p : List Char) (x : List Char) :
    stripPfx p (p ++ x) = some x := by
  induction p with
  | nil => simp [stripPfx]
  | cons c cs ih => simp [stripPfx, ih]

theorem all_takeWhile' (p : Char → Bool) (l : List Char) :
    (l.takeWhile p).all p = true := by
  induction l with
  | nil => simp [List.takeWhile]
  | cons c cs ih =>
    simp only [List.takeWhile]
    split
    · next h => simp [List.all_cons, h, ih]
    · simp

theorem takeWhile_append_of_all {p : Char → Bool} {a : List Char}
    (h : a.all p = true) {x : Char} (hx : p x = false) (t : List Char) :
    (a ++ x :: t).takeWhile p = a := by
  induction a with
  | nil => simp [List.takeWhile, hx]
  | cons c cs ih =>
    simp only [List.all_cons, Bool.and_eq_true] at h
    simp [List.takeWhile, h.1, ih h.2]

theorem dropWhile_append_of_all {p : Char → Bool} {a : List Char}
    (h : a.all p = true) {x : Char} (hx : p x = false) (t : List Char) :
    (a ++ x :: t).dropWhile p = x :: t := by
  induction a with
  | nil => simp [List.dropWhile, hx]
  | cons c cs ih =>
    simp only [List.all_cons, Bool.and_eq_true] at h
    simp [List.dropWhile, h.1, ih h.2]

theorem isWsChar_of_isAlphaChar {c : Char} (h : isAlphaChar c = true) :
    isWsChar c = false := by
  unfold isAlphaChar at h
  unfold isWsChar
  rcases Bool.or_eq_true .. ▸ h with h' | h' <;>
  · simp only [Bool.and_eq_true, decide_eq_true_eq] at h'
    simp only [Bool.or_eq_false_iff, beq_eq_false_iff_ne]
    refine ⟨⟨⟨⟨⟨?_, ?_⟩, ?_⟩, ?_⟩, ?_⟩, ?_⟩ <;>
      (rintro rfl; revert h'; decide)

theorem utilityMatchAt_sound {l : List Char} {nm body : String} {rest : List Char}
    (h : utilityMatchAt l = some ((nm, body), rest)) :
    ∃ ws1 ws2,
      l = "@utility".data ++ ws1 ++ nm.data ++ ws2
            ++ '{' :: (body.data ++ '}' :: rest)
        ∧ ws1 ≠ [] ∧ ws1.all isWsChar = true ∧ ws2.all isWsChar = true
        ∧ (∃ c cs, nm.data = c :: cs ∧ isAlphaChar c = true
            ∧ cs.all isTokenChar = true)
        ∧ body.data ≠ [] ∧ body.data.all (fun c => c != '}') = true := by
  unfold utilityMatchAt at h
  split at h
  · exact absurd h (by simp)
  next r1 hr1 =>
    split at h
    · exact absurd h (by simp)
    next hws =>
      split at h
      · exact absurd h (by simp)
      next c cs hdrop1 =>
        split at h
        case isTrue halpha =>
          simp only [] at h
          split at h
          next r3 hdrop2 =>
            split at h
            · exact absurd h (by simp)
            next b bs hbody =>
              split at h
              next rest' hdrop3 =>
                simp only [Option.some.injEq, Prod.mk.injEq] at h
                obtain ⟨⟨hnm, hbd⟩, hrest⟩ := h
                subst hnm hbd hrest
                refine ⟨r1.takeWhile isWsChar,
                  (cs.dropWhile isTokenChar).takeWhile isWsChar,
                  ?_, ?_, all_takeWhile' .., all_takeWhile' ..,
                  ⟨c, cs.takeWhile isTokenChar, rfl, halpha, all_takeWhile' ..⟩,
                  by simp, ?_⟩
                · have e1 : l = "@utility".data ++ r1 := stripPfx_eq_append hr1
                  have e2 : r1.takeWhile isWsChar ++ (c :: cs) = r1 := by
                    rw [← hdrop1]; exact List.takeWhile_append_dropWhile ..
                  have e3 : cs.takeWhile isTokenChar ++ cs.dropWhile isTokenChar
                      = cs := List.takeWhile_append_dropWhile ..
                  have e4 : (cs.dropWhile isTokenChar).takeWhile isWsChar
                      ++ ('{' :: r3) = cs.dropWhile isTokenChar := by
                    rw [← hdrop2]; exact List.takeWhile_append_dropWhile ..
                  have e5 : (b :: bs) ++ ('}' :: rest') = r3 := by
                    rw [← hbody, ← hdrop3]
                    exact List.takeWhile_append_dropWhile ..
                  have key : "@utility".data ++ (r1.takeWhile isWsChar
                      ++ (c :: (cs.takeWhile isTokenChar
                        ++ ((cs.dropWhile isTokenChar).takeWhile isWsChar
                          ++ ('{' :: ((b :: bs) ++ ('}' :: rest'))))))) = l := by
                    rw [e5, e4, e3, e2, ← e1]
                  simpa [List.append_assoc] using key.symm
                · simpa using hws
                · rw [← hbody]; exact all_takeWhile' ..
              · exact absurd h (by simp)
          · exact absurd h (by simp)
        case isFalse => exact absurd h (by simp)

theorem utilityMatchAt_rest_suffix {l : List Char} {a : String × String}
    {rest : List Char} (h : utilityMatchAt l = some (a, rest)) :
    ∃ pre, l = pre ++ rest := by
  obtain ⟨nm, body⟩ := a
  obtain ⟨ws1, ws2, heq, -⟩ := utilityMatchAt_sound h
  exact ⟨"@utility".data ++ ws1 ++ nm.data ++ ws2 ++ '{' :: body.data ++ [ '}' ],
    by simp [heq, List.append_assoc]⟩

theorem scanAll_mem_sound {α : Type} (m : List Char → Option (α × List Char))
    (hm : ∀ l a rest, m l = some (a, rest) → ∃ pre, l = pre ++ rest) :
    ∀ fuel l ms, scanAll m fuel l = some ms → ∀ a ∈ ms,
      ∃ pre t rest, l = pre ++ t ∧ m t = some (a, rest) := by
  intro fuel
  induction fuel with
  | zero => intro l ms h; simp [scanAll] at h
  | succ n ih =>
    intro l ms h a ha
    match l with
    | [] =>
      simp [scanAll] at h
      subst h
      simp at ha
    | c :: cs =>
      cases hm' : m (c :: cs) with
      | none =>
        simp only [scanAll, hm'] at h
        obtain ⟨pre, t, rest, hl, hmt⟩ := ih cs ms h a ha
        exact ⟨c :: pre, t, rest, by simp [hl], hmt⟩
      | some p =>
        obtain ⟨a0, rest0⟩ := p
        simp only [scanAll, hm', Option.map_eq_some'] at h
        obtain ⟨ms', hms', rfl⟩ := h
        rcases List.mem_cons.mp ha with rfl | ha'
        · exact ⟨[], c :: cs, rest0, by simp, hm'⟩
        · obtain ⟨pre, t, rest, hl, hmt⟩ := ih rest0 ms' hms' a ha'
          obtain ⟨pre0, hpre0⟩ := hm _ _ _ hm'
          exact ⟨pre0 ++ pre, t, rest,
            by rw [hpre0, hl, List.append_assoc], hmt⟩

theorem parse_utilityDefinitions_eq (s : String) :
    ∃ ms, scanAll utilityMatchAt (s.data.length + 1) s.data = some ms
      ∧ (parseCustomThemeProperties s).utilityDefinitions
          = ms.map (fun p => renderUtility p.1 p.2) := by
  obtain ⟨vars, hv⟩ := Option.isSome_iff_exists.mp
    (scanAll_isSome cssVarMatchAt (fun _ _ _ => cssVarMatchAt_progress)
      (s.length + 1) s.data (Nat.lt_succ_self s.data.length))
  obtain ⟨blocks, hb⟩ := Option.isSome_iff_exists.mp
    (scanAll_isSome themeBlockMatchAt (fun _ _ _ => themeBlockMatchAt_progress)
      (s.length + 1) s.data (Nat.lt_succ_self s.data.length))
  obtain ⟨utils, hu⟩ := Option.isSome_iff_exists.mp
    (scanAll_isSome utilityMatchAt (fun _ _ _ => utilityMatchAt_progress)
      (s.length + 1) s.data (Nat.lt_succ_self s.data.length))
  obtain ⟨t1, ht1⟩ := Option.isSome_iff_exists.mp
    (foldlM_isSome _ applyThemeBlock_isSome blocks
      (vars.foldl (fun t p => applyVar t p.1 p.2) TokenSet.empty))
  refine ⟨utils, hu, ?_⟩
  simp [parseCustomThemeProperties, parseCustomThemePropertiesOpt,
    hv, hb, ht1, hu]

theorem utilityNameOf_render {nm body : String}
    (hnm : ∃ c cs, nm.data = c :: cs ∧ isAlphaChar c = true
      ∧ cs.all isTokenChar = true) :
    utilityNameOf (renderUtility nm body) = some nm := by
  obtain ⟨c, cs, hdata, halpha, htok⟩ := hnm
  have hws : isWsChar ' ' = true := by decide
  have hcws : isWsChar c = false := isWsChar_of_isAlphaChar halpha
  have htokSp : isTokenChar ' ' = false := by decide
  have hdataEq : (renderUtility nm body).data
      = '@' :: 'u' :: 't' :: 'i' :: 'l' :: 'i' :: 't' :: 'y' :: ' '
          :: (c :: (cs ++ (' ' :: '{' :: (body.data ++ [ '}' ])))) := by
    simp [renderUtility, String.data_append, hdata]
  have hmatch : utilNameMatchAt ('@' :: 'u' :: 't' :: 'i' :: 'l' :: 'i' :: 't'
        :: 'y' :: ' ' :: (c :: (cs ++ (' ' :: '{' :: (body.data ++ [ '}' ])))))
      = some nm := by
    have hsplit : ('@' :: 'u' :: 't' :: 'i' :: 'l' :: 'i' :: 't' :: 'y' :: ' '
          :: (c :: (cs ++ (' ' :: '{' :: (body.data ++ [ '}' ])))))
        = "@utility".data
            ++ (' ' :: (c :: (cs ++ (' ' :: '{' :: (body.data ++ [ '}' ]))))) :=
      rfl
    rw [hsplit]
    simp only [utilNameMatchAt, stripPfx_self_append, List.takeWhile_cons, hws,
      if_true, List.isEmpty_cons, List.dropWhile_cons, hcws, Bool.false_eq_true,
      if_false, halpha, takeWhile_append_of_all htok htokSp]
    exact congrArg some (by rw [← hdata])
  unfold utilityNameOf
  rw [hdataEq]
  simp only [firstUtilityName]
  rw [hmatch]

/-- C2, counterexample: on `--color-primary-500: #fff;` the extractor does
    NOT produce a color token `primary`: greedy group 1 of the CSS-variable
    regex captures the category `color-primary`, whose numeric name `500`
    sends the whole prefix `color-primary` to the colors set. -/
theorem C2_counterexample :
    "primary" ∉ (parseCustomThemeProperties "--color-primary-500: #fff;").colors := by
  decide

/-- C2, amended: on `--color-primary-500: #fff;` the colors set is exactly
    a singleton `color-primary` (the greedy category capture), and on
    `--spacing-3xl: 4rem;` the spacing set does contain `3xl` as claimed. -/
theorem C2_amended_extraction :
    (parseCustomThemeProperties "--color-primary-500: #fff;").colors
        = [ "color-primary"]
      ∧ "3xl" ∈ (parseCustomThemeProperties "--spacing-3xl: 4rem;").spacing := by
  decide

/-- C8: the token extractor is total on arbitrary CSS text — the embedded
    scan loops always terminate within fuel `length + 1` and return a
    TokenSet for every input string; on malformed CSS (an unterminated
    `@theme` block) the result is the partial TokenSet in which the
    unmatched regions are simply not captured. -/
theorem C8_extractor_total :
    (∀ s : String, (parseCustomThemePropertiesOpt s).isSome)
      ∧ parseCustomThemeProperties "@theme inline \x7b --color-x-500: red;"
          = { colors := [ "color-x"], spacing := [], textSizes := [],
              fonts := [], utilityDefinitions := [] } := by
  constructor
  · intro s
    obtain ⟨vars, hv⟩ := Option.isSome_iff_exists.mp
      (scanAll_isSome cssVarMatchAt (fun _ _ _ => cssVarMatchAt_progress)
        (s.length + 1) s.data (Nat.lt_succ_self s.data.length))
    obtain ⟨blocks, hb⟩ := Option.isSome_iff_exists.mp
      (scanAll_isSome themeBlockMatchAt (fun _ _ _ => themeBlockMatchAt_progress)
        (s.length + 1) s.data (Nat.lt_succ_self s.data.length))
    obtain ⟨utils, hu⟩ := Option.isSome_iff_exists.mp
      (scanAll_isSome utilityMatchAt (fun _ _ _ => utilityMatchAt_progress)
        (s.length + 1) s.data (Nat.lt_succ_self s.data.length))
    obtain ⟨t1, ht1⟩ := Option.isSome_iff_exists.mp
      (foldlM_isSome _ applyThemeBlock_isSome blocks
        (vars.foldl (fun t p => applyVar t p.1 p.2) TokenSet.empty))
    simp [parseCustomThemePropertiesOpt, hv, hb, ht1, hu]
  · decide

/-- C4, counterexample: a custom-utility block whose name is followed by two
    spaces before the brace is NOT captured verbatim: the stored definition
    re-renders the block with single normalized spaces, and that stored text
    does not even occur in the input. -/
theorem C4_counterexample :
    (parseCustomThemeProperties "@utility glow  \x7bcolor:red\x7d").utilityDefinitions
        = [ "@utility glow \x7bcolor:red\x7d"]
      ∧ occursIn "@utility glow \x7bcolor:red\x7d".data
          "@utility glow  \x7bcolor:red\x7d".data = false := by
  decide

/-- C4, amended: every stored utility definition is the normalized
    re-rendering `@utility NAME {BODY}` of a block that occurs in the input
    as `@utility WS1 NAME WS2 {BODY}` — the name and body are verbatim, the
    whitespace between the tokens is normalized to single spaces — and the
    name-extraction regex used by the safelist generator recovers exactly
    NAME from the stored definition (for inclusion as a literal class). -/
theorem C4_amended_utility_capture (s d : String)
    (hd : d ∈ (parseCustomThemeProperties s).utilityDefinitions) :
    ∃ nm body ws1 ws2,
      d = renderUtility nm body
        ∧ containsSeg ("@utility".data ++ ws1 ++ nm.data ++ ws2
            ++ '{' :: body.data ++ [ '}' ]) s.data
        ∧ ws1 ≠ [] ∧ ws1.all isWsChar = true ∧ ws2.all isWsChar = true
        ∧ utilityNameOf d = some nm := by
  obtain ⟨ms, hms, heq⟩ := parse_utilityDefinitions_eq s
  rw [heq] at hd
  obtain ⟨p, hp, rfl⟩ := List.mem_map.mp hd
  obtain ⟨pre, t, rest, hlt, hmt⟩ := scanAll_mem_sound utilityMatchAt
    (fun _ _ _ h => utilityMatchAt_rest_suffix h) _ _ _ hms p hp
  obtain ⟨nm, body⟩ := p
  obtain ⟨ws1, ws2, hteq, hws1ne, hws1, hws2, hnm, hbne, hba⟩ :=
    utilityMatchAt_sound hmt
  refine ⟨nm, body, ws1, ws2, rfl, ?_, hws1ne, hws1, hws2,
    utilityNameOf_render hnm⟩
  refine ⟨pre, rest, ?_⟩
  rw [hlt, hteq]
  simp [List.append_assoc]

theorem C4_amended_witness :
    "@utility glow \x7bcolor:red\x7d"
        ∈ (parseCustomThemeProperties "@utility glow \x7bcolor:red\x7d").utilityDefinitions
      ∧ ∃ nm body ws1 ws2,
          "@utility glow \x7bcolor:red\x7d" = renderUtility nm body
            ∧ containsSeg ("@utility".data ++ ws1 ++ nm.data ++ ws2
                ++ '{' :: body.data ++ [ '}' ])
                "@utility glow \x7bcolor:red\x7d".data
            ∧ ws1 ≠ [] ∧ ws1.all isWsChar = true ∧ ws2.all isWsChar = true
            ∧ utilityNameOf "@utility glow \x7bcolor:red\x7d" = some nm :=
  ⟨by decide, C4_amended_utility_capture _ _ (by decide)⟩

theorem splitSlash_no_slash :
    ∀ (l : List Char), ∀ seg ∈ splitSlash l, seg.all (fun c => c != '/') = true := by
  intro l
  induction l with
  | nil =>
    intro seg h
    simp [splitSlash] at h
    simp [h]
  | cons c cs ih =>
    intro seg h
    simp only [splitSlash] at h
    split at h
    · rcases List.mem_cons.mp h with rfl | hmem
      · simp
      · exact ih seg hmem
    · next hc =>
      split at h
      · next s0 rest heq =>
        rcases List.mem_cons.mp h with rfl | hmem
        · have hs0 := ih s0 (by rw [heq]; exact List.mem_cons_self ..)
          simp only [List.all_cons, Bool.and_eq_true]
          exact ⟨by simpa using hc, hs0⟩
        · exact ih seg (by rw [heq]; exact List.mem_cons_of_mem _ hmem)
      · next heq =>
        rcases List.mem_cons.mp h with rfl | hmem
        · simpa using hc
        · simp at hmem

theorem mem_foldl_normStep :
    ∀ (segs : List (List Char)) (acc : List (List Char)) (seg : List Char),
      seg ∈ segs.foldl normStep acc → seg ∈ acc ∨ seg ∈ segs := by
  intro segs
  induction segs with
  | nil =>
    intro acc seg h
    simp only [List.foldl_nil] at h
    exact Or.inl h
  | cons s ss ih =>
    intro acc seg h
    simp only [List.foldl_cons] at h
    rcases ih _ _ h with hacc | hss
    · unfold normStep at hacc
      split at hacc
      · exact Or.inl hacc
      · split at hacc
        · exact Or.inl (List.dropLast_subset _ hacc)
        · rcases List.mem_append.mp hacc with h3 | h3
          · exact Or.inl h3
          · simp only [List.mem_singleton] at h3
            subst h3
            exact Or.inr (List.mem_cons_self ..)
    · exact Or.inr (List.mem_cons_of_mem _ hss)

theorem dropCommonSegs_snd_sub :
    ∀ (fs ts : List (List Char)) (seg : List Char),
      seg ∈ (dropCommonSegs fs ts).2 → seg ∈ ts := by
  intro fs
  induction fs with
  | nil => intro ts seg h; simpa [dropCommonSegs] using h
  | cons f fs' ih =>
    intro ts seg h
    match ts with
    | [] => simp [dropCommonSegs] at h
    | t :: ts' =>
      simp only [dropCommonSegs] at h
      split at h
      · exact List.mem_cons_of_mem _ (ih ts' seg h)
      · exact h

theorem pathSegs_no_slash (p : String) :
    ∀ seg ∈ pathSegs p, seg.all (fun c => c != '/') = true := by
  intro seg h
  unfold pathSegs normalizeSegs at h
  rcases mem_foldl_normStep _ _ _ h with h' | h'
  · simp at h'
  · exact splitSlash_no_slash _ seg h'

/-- C5: the path resolver applied to staging directory `/ext/preview`
    (extension path `/ext`) and target `/ws/src/components/Btn.tsx` yields
    `../../ws/src/components/Btn.tsx`; and for every component/extension
    path pair the result is the `/`-join of slash-free segments, i.e.
    forward-slash separated and usable as a module specifier. -/
theorem C5_relative_path :
    convertToRelativePath "/ws/src/components/Btn.tsx" (some "/ext")
        = "../../ws/src/components/Btn.tsx"
      ∧ ∀ (componentPath extensionPath : String),
          ∃ segs : List String,
            convertToRelativePath componentPath (some extensionPath)
                = String.intercalate "/" segs
              ∧ segs.all (fun seg => seg.data.all (fun c => c != '/')) = true := by
  refine ⟨by decide, ?_⟩
  intro cp ep
  refine ⟨(dropCommonSegs (pathSegs (ep ++ "/preview")) (pathSegs cp)).1.map
        (fun _ => "..")
      ++ (dropCommonSegs (pathSegs (ep ++ "/preview")) (pathSegs cp)).2.map
        (fun seg => (⟨seg⟩ : String)), rfl, ?_⟩
  rw [List.all_eq_true]
  intro seg hseg
  rcases List.mem_append.mp hseg with h | h
  · obtain ⟨_, _, rfl⟩ := List.mem_map.mp h
    decide
  · obtain ⟨sl, hsl, rfl⟩ := List.mem_map.mp h
    simpa using pathSegs_no_slash cp sl (dropCommonSegs_snd_sub _ _ _ hsl)

theorem containsStr_failMsg (m ep wp : String) :
    containsStr ep ("Failed to start Vite server: " ++ m ++ ". Extension path: "
        ++ ep ++ ", Workspace path: " ++ wp)
      ∧ containsStr wp ("Failed to start Vite server: " ++ m ++ ". Extension path: "
        ++ ep ++ ", Workspace path: " ++ wp) := by
  constructor
  · exact ⟨("Failed to start Vite server: " ++ m ++ ". Extension path: ").data,
      (", Workspace path: " ++ wp).data, by simp [String.data_append]⟩
  · exact ⟨("Failed to start Vite server: " ++ m ++ ". Extension path: " ++ ep
      ++ ", Workspace path: ").data, [], by simp [String.data_append]⟩

/-- C6: whenever `start()` passes its guard and then fails — missing preview
    directory, `createServer` error, or `listen` error — the state is reset
    to Stopped (no server handle, `isStarting` cleared) and the rethrown
    error message contains both the extension path and the workspace path. -/
theorem C6_start_failure (env : Env) (st : ManagerState)
    (hserver : st.viteServer = none) (hstarting : st.isStarting = false)
    (hfail : env.previewDirExists = false ∨ env.createServerOk = false
      ∨ env.listenOk = false) :
    (start env st).1.viteServer = none
      ∧ (start env st).1.isStarting = false
      ∧ ∃ msg, (start env st).2 = Except.error msg
          ∧ containsStr st.extensionPath msg
          ∧ containsStr st.workspacePath msg := by
  have hguard : (st.viteServer.isSome || st.isStarting) = false := by
    rw [hserver, hstarting]; rfl
  cases hp : env.previewDirExists with
  | false =>
    refine ⟨?_, ?_, ?_⟩
    · simp [start, hguard, hp]
    · simp [start, hguard, hp]
    · simp only [start, hguard, Bool.false_eq_true, if_false, hp,
        Bool.not_false, if_true]
      exact ⟨_, rfl, (containsStr_failMsg _ _ _).1, (containsStr_failMsg _ _ _).2⟩
  | true =>
    cases hc : env.createServerOk with
    | false =>
      refine ⟨?_, ?_, ?_⟩
      · simp [start, hguard, hp, hc]
      · simp [start, hguard, hp, hc]
      · simp only [start, hguard, Bool.false_eq_true, if_false, hp,
          Bool.not_true, hc, Bool.not_false, if_true]
        exact ⟨_, rfl, (containsStr_failMsg _ _ _).1, (containsStr_failMsg _ _ _).2⟩
    | true =>
      cases hl : env.listenOk with
      | false =>
        refine ⟨?_, ?_, ?_⟩
        · simp [start, hguard, hp, hc, hl]
        · simp [start, hguard, hp, hc, hl]
        · simp only [start, hguard, Bool.false_eq_true, if_false, hp,
            Bool.not_true, hc, hl, Bool.not_false, if_true]
          exact ⟨_, rfl, (containsStr_failMsg _ _ _).1, (containsStr_failMsg _ _ _).2⟩
      | true =>
        rcases hfail with h | h | h
        · rw [hp] at h; exact absurd h (by simp)
        · rw [hc] at h; exact absurd h (by simp)
        · rw [hl] at h; exact absurd h (by simp)

theorem C6_witness :
    (⟨"/ext", "/ws", none, false, none, false⟩ : ManagerState).viteServer = none
      ∧ (⟨"/ext", "/ws", none, false, none, false⟩ : ManagerState).isStarting = false
      ∧ ((⟨false, true, "", 0, true, "", false, true, ""⟩ : Env).previewDirExists = false
          ∨ (⟨false, true, "", 0, true, "", false, true, ""⟩ : Env).createServerOk = false
          ∨ (⟨false, true, "", 0, true, "", false, true, ""⟩ : Env).listenOk = false)
      ∧ ((start ⟨false, true, "", 0, true, "", false, true, ""⟩
            ⟨"/ext", "/ws", none, false, none, false⟩).1.viteServer = none
          ∧ (start ⟨false, true, "", 0, true, "", false, true, ""⟩
            ⟨"/ext", "/ws", none, false, none, false⟩).1.isStarting = false
          ∧ ∃ msg, (start ⟨false, true, "", 0, true, "", false, true, ""⟩
              ⟨"/ext", "/ws", none, false, none, false⟩).2 = Except.error msg
            ∧ containsStr (⟨"/ext", "/ws", none, false, none, false⟩ : ManagerState).extensionPath msg
            ∧ containsStr (⟨"/ext", "/ws", none, false, none, false⟩ : ManagerState).workspacePath msg) :=
  ⟨rfl, rfl, Or.inl rfl, C6_start_failure _ _ rfl rfl (Or.inl rfl)⟩

/-- C7, counterexample: with a component loaded and the entry-point write
    failing, `updateComponentProps` still throws — so "throws iff no
    component is loaded" fails in the only-if direction. -/
theorem C7_counterexample :
    getCurrentComponent
        (⟨"/ext", "/ws", none, false, some ⟨"Btn", "/ws/Btn.tsx", []⟩, false⟩
          : ManagerState) ≠ none
      ∧ (updateComponentProps (⟨true, true, "", 0, true, "", false, false, "disk full"⟩ : Env)
          (⟨"/ext", "/ws", none, false, some ⟨"Btn", "/ws/Btn.tsx", []⟩, false⟩
            : ManagerState) []).2 = Except.error "disk full" := by
  exact ⟨by decide, rfl⟩

/-- C7, amended: `updateComponentProps` throws the dedicated
    "No component currently loaded" error exactly when no component is
    loaded; when one is loaded it is literally `updateComponent` on the
    current descriptor with its props replaced (which can itself fail,
    e.g. when the entry-point write fails). -/
theorem C7_amended_props_update (env : Env) (st : ManagerState)
    (props : List PropSpec) :
    (st.currentComponent = none →
        updateComponentProps env st props
          = (st, Except.error "No component currently loaded"))
      ∧ ∀ c, st.currentComponent = some c →
          updateComponentProps env st props
            = updateComponent env st { c with props := props } := by
  constructor
  · intro h; simp [updateComponentProps, h]
  · intro c h; simp [updateComponentProps, h]

theorem C7_amended_witness :
    ((⟨"/e", "/w", none, false, some ⟨"B", "/p", []⟩, false⟩
        : ManagerState).currentComponent = some ⟨"B", "/p", []⟩)
      ∧ updateComponentProps (⟨true, true, "", 0, true, "", false, true, ""⟩ : Env)
          (⟨"/e", "/w", none, false, some ⟨"B", "/p", []⟩, false⟩ : ManagerState) []
        = updateComponent (⟨true, true, "", 0, true, "", false, true, ""⟩ : Env)
            (⟨"/e", "/w", none, false, some ⟨"B", "/p", []⟩, false⟩ : ManagerState)
            { (⟨"B", "/p", []⟩ : ComponentInfo) with props := [] } :=
  ⟨rfl, (C7_amended_props_update _ _ _).2 _ rfl⟩

/-- C9: `stop()` in the Stopped state (no server handle) returns without
    error and leaves the whole manager state unchanged. -/
theorem C9_stop_noop (env : StopEnv) (st : ManagerState)
    (h : st.viteServer = none) :
    stop env st = (st, Except.ok ()) := by
  simp [stop, h]

theorem C9_witness :
    (⟨"/e", "/w", none, true, none, true⟩ : ManagerState).viteServer = none
      ∧ stop ⟨true, ""⟩ (⟨"/e", "/w", none, true, none, true⟩ : ManagerState)
          = ((⟨"/e", "/w", none, true, none, true⟩ : ManagerState), Except.ok ()) :=
  ⟨rfl, C9_stop_noop _ _ rfl⟩

/-- C10: `updateComponent` stores the descriptor before regeneration, so
    when the entry-point write fails and the operation throws, the current
    component afterwards is the NEW descriptor (the operation is not atomic
    on error). -/
theorem C10_descriptor_stored_before_write (env : Env) (st : ManagerState)
    (info : ComponentInfo) (h : env.entryWriteOk = false) :
    (updateComponent env st info).2 = Except.error env.entryWriteErr
      ∧ getCurrentComponent (updateComponent env st info).1 = some info := by
  simp [updateComponent, getCurrentComponent, h]

theorem C10_witness :
    (⟨true, true, "", 0, true, "", false, false, "boom"⟩ : Env).entryWriteOk = false
      ∧ ((updateComponent (⟨true, true, "", 0, true, "", false, false, "boom"⟩ : Env)
            (⟨"/e", "/w", none, false, some ⟨"Old", "/old", []⟩, false⟩ : ManagerState)
            ⟨"New", "/new", []⟩).2
          = Except.error (⟨true, true, "", 0, true, "", false, false, "boom"⟩ : Env).entryWriteErr
        ∧ getCurrentComponent
            (updateComponent (⟨true, true, "", 0, true, "", false, false, "boom"⟩ : Env)
              (⟨"/e", "/w", none, false, some ⟨"Old", "/old", []⟩, false⟩ : ManagerState)
              ⟨"New", "/new", []⟩).1 = some ⟨"New", "/new", []⟩) :=
  ⟨rfl, C10_descriptor_stored_before_write _ _ _ rfl⟩

theorem aggregateThemes_congr (env1 env2 : String → Option String)
    (imports : List String)
    (h : ∀ t ∈ imports, (env1 t).map parseCustomThemeProperties
      = (env2 t).map parseCustomThemeProperties) :
    aggregateThemes env1 imports = aggregateThemes env2 imports := by
  unfold aggregateThemes
  suffices H : ∀ (imps : List String) (acc : TokenSet),
      (∀ t ∈ imps, (env1 t).map parseCustomThemeProperties
        = (env2 t).map parseCustomThemeProperties) →
      imps.foldl (fun acc imp =>
          match env1 imp with
          | some css => accumulateTheme acc (parseCustomThemeProperties css)
          | none => acc) acc
        = imps.foldl (fun acc imp =>
          match env2 imp with
          | some css => accumulateTheme acc (parseCustomThemeProperties css)
          | none => acc) acc from
    H imports TokenSet.empty h
  intro imps
  induction imps with
  | nil => intro acc _; rfl
  | cons i is ih =>
    intro acc hmem
    have hi := hmem i (List.mem_cons_self ..)
    have hrest := fun t ht => hmem t (List.mem_cons_of_mem _ ht)
    simp only [List.foldl_cons]
    cases h1 : env1 i with
    | none =>
      cases h2 : env2 i with
      | none => exact ih _ hrest
      | some c2 => rw [h1, h2] at hi; exact absurd hi (by simp)
    | some c1 =>
      cases h2 : env2 i with
      | none => rw [h1, h2] at hi; exact absurd hi (by simp)
      | some c2 =>
        rw [h1, h2] at hi
        simp only [Option.map_some', Option.some.injEq] at hi
        dsimp only
        rw [hi]
        exact ih _ hrest

/-- C1, counterexample: two theme environments whose aggregated token
    collections are equal as sets (colors `aa`,`bb` in opposite discovery
    order, every other category empty and equal) produce different safelist
    text — no token collection is sorted before interpolation, so the output
    depends on discovery order. -/
theorem C1_counterexample :
    (aggregateThemes themeEnvA [ "t.css"]).colors = [ "aa", "bb"]
      ∧ (aggregateThemes themeEnvB [ "t.css"]).colors = [ "bb", "aa"]
      ∧ ((aggregateThemes themeEnvA [ "t.css"]).colors.all
          (fun x => x ∈ (aggregateThemes themeEnvB [ "t.css"]).colors)) = true
      ∧ ((aggregateThemes themeEnvB [ "t.css"]).colors.all
          (fun x => x ∈ (aggregateThemes themeEnvA [ "t.css"]).colors)) = true
      ∧ (aggregateThemes themeEnvA [ "t.css"]).spacing
          = (aggregateThemes themeEnvB [ "t.css"]).spacing
      ∧ (aggregateThemes themeEnvA [ "t.css"]).textSizes
          = (aggregateThemes themeEnvB [ "t.css"]).textSizes
      ∧ (aggregateThemes themeEnvA [ "t.css"]).fonts
          = (aggregateThemes themeEnvB [ "t.css"]).fonts
      ∧ (aggregateThemes themeEnvA [ "t.css"]).utilityDefinitions
          = (aggregateThemes themeEnvB [ "t.css"]).utilityDefinitions
      ∧ generateDynamicTailwindCss themeEnvA [ "t.css"]
          ≠ generateDynamicTailwindCss themeEnvB [ "t.css"] := by
  refine ⟨by decide, by decide, by decide, by decide, by decide, by decide,
    by decide, by decide, ?_⟩
  · have hne : (generateDynamicTailwindCss themeEnvA [ "t.css"]).data.take 460
        ≠ (generateDynamicTailwindCss themeEnvB [ "t.css"]).data.take 460 := by
      decide
    exact fun h => hne (by rw [h])

/-- C1, amended: the generated stylesheet is a function of the per-file
    parsed TokenSets in import order — two theme environments whose files
    parse identically (in particular, byte-identical theme directories)
    yield byte-identical output.  It is NOT invariant under reordering of
    the discovered tokens (see the counterexample): no sorting happens
    before interpolation. -/
theorem C1_amended_output_determined (env1 env2 : String → Option String)
    (imports : List String)
    (h : ∀ t ∈ imports, (env1 t).map parseCustomThemeProperties
      = (env2 t).map parseCustomThemeProperties) :
    generateDynamicTailwindCss env1 imports
      = generateDynamicTailwindCss env2 imports := by
  unfold generateDynamicTailwindCss
  rw [aggregateThemes_congr env1 env2 imports h]

theorem C1_amended_witness :
    (∀ t ∈ [ "t.css"],
        (((fun imp => if imp = "t.css" then some "--aa-500: x;" else none)
            : String → Option String) t).map parseCustomThemeProperties
          = (((fun imp => if imp = "t.css" then some "--aa-500: x;/* c */" else none)
            : String → Option String) t).map parseCustomThemeProperties)
      ∧ generateDynamicTailwindCss
            ((fun imp => if imp = "t.css" then some "--aa-500: x;" else none)
              : String → Option String) [ "t.css"]
          = generateDynamicTailwindCss
            ((fun imp => if imp = "t.css" then some "--aa-500: x;/* c */" else none)
              : String → Option String) [ "t.css"] := by
  have h : ∀ t ∈ [ "t.css"],
      (((fun imp => if imp = "t.css" then some "--aa-500: x;" else none)
          : String → Option String) t).map parseCustomThemeProperties
        = (((fun imp => if imp = "t.css" then some "--aa-500: x;/* c */" else none)
          : String → Option String) t).map parseCustomThemeProperties := by
    intro t ht
    have ht' : t = "t.css" := by simpa using ht
    subst ht'
    decide
  exact ⟨h, C1_amended_output_determined _ _ _ h⟩

/-- C3, counterexample: an `array`-typed prop default is not emitted
    verbatim — it falls into the `default` switch case and is wrapped in
    double quotes like a string. -/
theorem C3_counterexample :
    generateJSXProps [⟨"items", "array", "[1, 2]"⟩] = "items=\"[1, 2]\""
      ∧ generateJSXProps [⟨"items", "array", "[1, 2]"⟩] ≠ "items=[1, 2]" := by
  constructor
  · rfl
  · decide

/-- C3, amended: for a Prop whose type is `array` or `object`, the entry
    generator emits the stored defaultValue text wrapped in double quotes
    (the switch's `default` case), not verbatim. -/
theorem C3_amended_quoted_default (p : PropSpec)
    (h : p.propType = "array" ∨ p.propType = "object") :
    generateJSXProps [p] = p.propName ++ "=" ++ ("\"" ++ p.defaultValue ++ "\"") := by
  rcases h with h | h <;>
    simp [generateJSXProps, propJSXEntry, propJSXValue, h,
      String.intercalate, List.intercalate, List.intersperse,
      String.intercalate.go]

theorem C3_amended_witness :
    ((⟨"items", "array", "[1, 2]"⟩ : PropSpec).propType = "array"
        ∨ (⟨"items", "array", "[1, 2]"⟩ : PropSpec).propType = "object")
      ∧ generateJSXProps [⟨"items", "array", "[1, 2]"⟩]
          = (⟨"items", "array", "[1, 2]"⟩ : PropSpec).propName ++ "="
              ++ ("\"" ++ (⟨"items", "array", "[1, 2]"⟩ : PropSpec).defaultValue ++ "\"") :=
  ⟨Or.inl rfl, C3_amended_quoted_default _ (Or.inl rfl)⟩

end Dld
